import Mathlib

/-!
Verification development for the `mixer` broadcaster CLI client and the
consistency-verification test harness.

The embedding follows the two repository files:
  * `broadcaster/cli.py` — `CliClient` (room/roster operations, the background
    consumption loop `consume`), `process_room_command`, `process_client_command`
    and the interactive command loop;
  * `tests/mixer_testcase.py` — `MixerTestCase.assert_matches`, the end-to-end
    capture-and-compare verification.

The base transport (`client.py`), the command codec (`common.py`) and the
capture oracle (`tests/grabber.py`) are not part of the visible sources; the
definitions for them below are modelled from the specification and say so in
their doc comments.
-/

/-- Modelled from the spec: the closed `MessageType` tag space of `common.py`
(room queries, roster queries, lifecycle signals), plus the domain-specific
substream-tagged broadcast types used by collaborators. -/
inductive MessageType : Type where
  | LIST_ROOMS
  | DELETE_ROOM
  | CLEAR_ROOM
  | LIST_ROOM_CLIENTS
  | LIST_CLIENTS
  | LIST_ALL_CLIENTS
  | CONNECTION_LOST
  | DOMAIN (tag : Nat)
deriving DecidableEq, Repr

/-- Modelled from the spec: `common.Command` is a type tag plus an opaque byte
payload; a `Command` constructed with the payload omitted carries the empty
byte sequence. Bytes are modelled as natural numbers. -/
structure Command : Type where
  type : MessageType
  payload : List Nat := []
deriving DecidableEq, Repr

/-- Modelled from the spec: `name.encode()`, the UTF-8 byte encoding of a
room/client name, as a list of byte values. -/
def strEncode (s : String) : List Nat :=
  s.data.flatMap (fun c => (String.utf8EncodeChar c).map (fun b => b.toNat))

/-- The command constructed by `CliClient.listRooms`. -/
def listRoomsCmd : Command := { type := MessageType.LIST_ROOMS }

/-- The command constructed by `CliClient.deleteRoom` for one room name. -/
def deleteRoomCmd (name : String) : Command :=
  { type := MessageType.DELETE_ROOM, payload := strEncode name }

/-- The command constructed by `CliClient.clearRoom` for one room name. -/
def clearRoomCmd (name : String) : Command :=
  { type := MessageType.CLEAR_ROOM, payload := strEncode name }

/-- The command constructed by `CliClient.listRoomClients` for one room name. -/
def listRoomClientsCmd (name : String) : Command :=
  { type := MessageType.LIST_ROOM_CLIENTS, payload := strEncode name }

/-- The command constructed by `CliClient.listClients`. -/
def listClientsCmd : Command := { type := MessageType.LIST_CLIENTS }

/-- The command constructed by `CliClient.listAllClients`. -/
def listAllClientsCmd : Command := { type := MessageType.LIST_ALL_CLIENTS }

/-- State of a `CliClient`.  `connected`, `outbox` (the pending-command queue),
and `inbox` (the inbound buffer) belong to the base `client.Client` transport
(modelled from the spec); `terminate` and `consumerRunning` reflect the
`terminate` flag and the consumer thread of `cli.py`'s `CliClient`. -/
structure CliClient : Type where
  host : String
  port : Nat
  connected : Bool
  terminate : Bool
  consumerRunning : Bool
  outbox : List Command
  inbox : List Command
deriving DecidableEq, Repr

namespace Client

/-- Modelled from the spec: `client.Client.__init__(host, port)` creates an
unconnected client with empty queues and no background activity. -/
def init (host : String) (port : Nat) : CliClient :=
  { host := host, port := port, connected := false, terminate := false,
    consumerRunning := false, outbox := [], inbox := [] }

/-- Modelled from the spec: `client.Client.connect` establishes the connection
(success case).  The consumption thread of `CliClient` is the one started by
`CliClient.__init__` in `cli.py`; the base transport only opens the socket. -/
def connect (c : CliClient) : CliClient := { c with connected := true }

/-- Modelled from the spec: `client.Client.isConnected`. -/
def isConnected (c : CliClient) : Bool := c.connected

/-- Modelled from the spec: `client.Client.addCommand` enqueues a command for
transmission at the tail of the single FIFO outbound queue. -/
def addCommand (c : CliClient) (cmd : Command) : CliClient :=
  { c with outbox := c.outbox ++ [cmd] }

/-- Modelled from the spec: `client.Client.consume_one` is non-blocking — it
returns the next buffered inbound command if any, else `none`. -/
def consume_one (c : CliClient) : Option Command × CliClient :=
  match c.inbox with
  | [] => (none, c)
  | cmd :: rest => (some cmd, { c with inbox := rest })

/-- Modelled from the spec: `client.Client.disconnect` closes the connection,
stops the background task (the `terminate` flag being the only cancellation
primitive) and marks the client as not connected. -/
def disconnect (c : CliClient) : CliClient :=
  { c with connected := false, terminate := true }

end Client

namespace CliClient

/-- `cli.py` `CliClient.__init__`: calls the base constructor, sets
`terminate` to false and starts the consumer thread running `consume`. -/
def mkInit (host : String) (port : Nat) : CliClient :=
  { Client.init host port with terminate := false, consumerRunning := true }

/-- `cli.py` `CliClient.post_command`: forwards to `addCommand`. -/
def post_command (c : CliClient) (cmd : Command) : CliClient :=
  Client.addCommand c cmd

/-- `cli.py` `CliClient.listRooms`. -/
def listRooms (c : CliClient) : CliClient := post_command c listRoomsCmd

/-- `cli.py` `CliClient.deleteRoom`. -/
def deleteRoom (c : CliClient) (name : String) : CliClient :=
  post_command c (deleteRoomCmd name)

/-- `cli.py` `CliClient.clearRoom`. -/
def clearRoom (c : CliClient) (name : String) : CliClient :=
  post_command c (clearRoomCmd name)

/-- `cli.py` `CliClient.listRoomClients`. -/
def listRoomClients (c : CliClient) (name : String) : CliClient :=
  post_command c (listRoomClientsCmd name)

/-- `cli.py` `CliClient.listClients`. -/
def listClients (c : CliClient) : CliClient := post_command c listClientsCmd

/-- `cli.py` `CliClient.listAllClients`. -/
def listAllClients (c : CliClient) : CliClient := post_command c listAllClientsCmd

end CliClient

example : (CliClient.deleteRoom (CliClient.mkInit "h" 1) "ab").outbox
    = [{ type := MessageType.DELETE_ROOM, payload := [97, 98] }] := by decide

/-- Events produced by one run of `cli.py`'s `CliClient.consume` loop:
`poll` is one `consume_one` attempt, `slept` one 0.1-second suspension,
`printed c` the formatting/printing of a received command. -/
inductive LoopEvent : Type where
  | poll
  | slept
  | printed (c : Command)
deriving DecidableEq, Repr

/-- `cli.py` `CliClient.consume`: `while not self.terminate:` poll
`consume_one`; sleep 0.1 s when nothing was received, otherwise call
`disconnect()` if the received command is `CONNECTION_LOST`, then print the
received command.  `fuel` bounds the number of flag checks so the function is
total; the loop itself exits only through the `terminate` flag. -/
def CliClient.consume (fuel : Nat) (c : CliClient) : CliClient × List LoopEvent :=
  match fuel with
  | 0 => (c, [])
  | Nat.succ fuel =>
    if c.terminate then (c, [])
    else
      match Client.consume_one c with
      | (none, c₁) =>
        let r := CliClient.consume fuel c₁
        (r.1, LoopEvent.poll :: LoopEvent.slept :: r.2)
      | (some cmd, c₁) =>
        let c₂ := if cmd.type = MessageType.CONNECTION_LOST then Client.disconnect c₁ else c₁
        let r := CliClient.consume fuel c₂
        (r.1, LoopEvent.poll :: LoopEvent.printed cmd :: r.2)

/-- Number of `poll` events in a consume trace. -/
def countPolls (evs : List LoopEvent) : Nat :=
  (evs.filter (fun e => e = LoopEvent.poll)).length

/-- Number of `poll` events occurring after the first `printed` event whose
command type is `CONNECTION_LOST`. -/
def pollsAfterLost : List LoopEvent → Nat
  | [] => 0
  | LoopEvent.printed cmd :: rest =>
    if cmd.type = MessageType.CONNECTION_LOST then countPolls rest
    else pollsAfterLost rest
  | _ :: rest => pollsAfterLost rest

/-- The `cli.py` `consume` loop, viewed against a concurrently written
`terminate` flag: `term i` is the value the loop reads at its i-th
`while not self.terminate` check.  The result is the number of iterations the
loop body executes; each executed iteration is exactly one `consume_one`
attempt followed by at most one 0.1-second sleep. -/
def consumeIterations (term : Nat → Bool) : Nat → Nat → Nat
  | 0, _ => 0
  | Nat.succ fuel, i =>
    if term i then 0 else Nat.succ (consumeIterations term fuel (i + 1))

/-- Transport-level events of one `process_room_command` /
`process_client_command` run. -/
inductive CliEvent : Type where
  | construct
  | connect
  | post (c : Command)
  | printed (s : String)
  | logError (s : String)
  | disconnect
deriving DecidableEq, Repr

/-- One step of the body of `process_room_command` / `process_client_command`:
either a call into the `CliClient` (which may raise `ServerError`) or a plain
`print` (which cannot). -/
inductive Step : Type where
  | call (ev : CliEvent)
  | output (s : String)
deriving DecidableEq, Repr

/-- Fault model for `ServerError`: `failAt = some k` makes the k-th client
call of the run raise `ServerError msg`; `failAt = none` is a fault-free run. -/
structure Fault : Type where
  failAt : Option Nat
  msg : String

/-- A fault-free run. -/
def noFault : Fault := { failAt := none, msg := "" }

/-- Executes the body steps in order.  A raising client call emits no event
and abandons the rest of the body (Python exception unwinding); the result is
the emitted events and the pending `ServerError` message, if one was raised. -/
def runSteps (f : Fault) : List Step → Nat → List CliEvent × Option String
  | [], _ => ([], none)
  | Step.output s :: rest, ctr =>
    let r := runSteps f rest ctr
    (CliEvent.printed s :: r.1, r.2)
  | Step.call ev :: rest, ctr =>
    if f.failAt = some ctr then ([], some f.msg)
    else
      let r := runSteps f rest (ctr + 1)
      (ev :: r.1, r.2)

/-- The body of `cli.py` `process_room_command`, per sub-command: `list` posts
`LIST_ROOMS`; `delete`/`clear`/`clients` require at least one room name and
post one command per name in the given order, else only print
`Expected one or more room names`. -/
def roomSteps (cmd : String) (names : List String) : List Step :=
  if cmd = "list" then
    [Step.call CliEvent.construct, Step.call CliEvent.connect,
     Step.call (CliEvent.post listRoomsCmd)]
  else if cmd = "delete" then
    if names.length ≠ 0 then
      [Step.call CliEvent.construct, Step.call CliEvent.connect]
        ++ names.map (fun n => Step.call (CliEvent.post (deleteRoomCmd n)))
    else [Step.output "Expected one or more room names"]
  else if cmd = "clear" then
    if names.length ≠ 0 then
      [Step.call CliEvent.construct, Step.call CliEvent.connect]
        ++ names.map (fun n => Step.call (CliEvent.post (clearRoomCmd n)))
    else [Step.output "Expected one or more room names"]
  else if cmd = "clients" then
    if names.length ≠ 0 then
      [Step.call CliEvent.construct, Step.call CliEvent.connect]
        ++ names.map (fun n => Step.call (CliEvent.post (listRoomClientsCmd n)))
    else [Step.output "Expected one or more room names"]
  else []

/-- The event a non-raising step emits. -/
def stepEvent : Step → CliEvent
  | Step.call ev => ev
  | Step.output s => CliEvent.printed s

/-- The `except ServerError as e: logging.error(e)` and
`finally: if client: client.disconnect()` wrappers shared by
`process_room_command` and `process_client_command`: a pending `ServerError`
is logged, and the client is disconnected exactly when the `CliClient(args)`
construction call completed (the `client` variable is non-None). -/
def finishRun (r : List CliEvent × Option String) : List CliEvent :=
  if CliEvent.construct ∈ r.1 then
    (r.1 ++ (match r.2 with
      | some m => [CliEvent.logError m]
      | none => [])) ++ [CliEvent.disconnect]
  else
    r.1 ++ (match r.2 with
      | some m => [CliEvent.logError m]
      | none => [])

/-- `cli.py` `process_room_command`: run the body under
`try ... except ServerError ... finally ...`. -/
def process_room_command (cmd : String) (names : List String) (f : Fault) :
    List CliEvent :=
  finishRun (runSteps f (roomSteps cmd names) 0)

/-- The body of `cli.py` `process_client_command`: only `list` does anything. -/
def clientSteps (cmd : String) : List Step :=
  if cmd = "list" then
    [Step.call CliEvent.construct, Step.call CliEvent.connect,
     Step.call (CliEvent.post listClientsCmd)]
  else []

/-- `cli.py` `process_client_command`, with the same `except`/`finally`
structure as `process_room_command`. -/
def process_client_command (cmd : String) (f : Fault) : List CliEvent :=
  finishRun (runSteps f (clientSteps cmd) 0)

/-- The commands a run posted, in order. -/
def postedCommands (evs : List CliEvent) : List Command :=
  evs.filterMap (fun e => match e with
    | CliEvent.post c => some c
    | _ => none)

/-- The room/roster commands dispatched by the guarded branch of
`cli.py`'s `interactive_loop`. -/
inductive RosterCmd : Type where
  | listrooms
  | listroomclients (name : String)
  | listjoinedclients
  | listallclients
deriving DecidableEq, Repr

/-- The message of the `RuntimeError` raised by `interactive_loop` when a
room/roster command is entered without an established connection. -/
def notConnectedMsg : String := "Not connected, use \"connect\" first"

/-- `cli.py` `interactive_loop`, dispatch of one room/roster command: if the
client is `None` or not connected, raise `RuntimeError` before invoking any
operation; otherwise invoke the matching `CliClient` operation. -/
def interactiveDispatch (client : Option CliClient) (cmd : RosterCmd) :
    Except String CliClient :=
  match client with
  | none => Except.error notConnectedMsg
  | some c =>
    if Client.isConnected c then
      Except.ok (match cmd with
        | RosterCmd.listrooms => CliClient.listRooms c
        | RosterCmd.listroomclients n => CliClient.listRoomClients c n
        | RosterCmd.listjoinedclients => CliClient.listClients c
        | RosterCmd.listallclients => CliClient.listAllClients c)
    else Except.error notConnectedMsg

example : process_room_command "delete" ["a", "b"] noFault
    = [CliEvent.construct, CliEvent.connect, CliEvent.post (deleteRoomCmd "a"),
       CliEvent.post (deleteRoomCmd "b"), CliEvent.disconnect] := by decide

example : process_room_command "delete" ["a", "b"] { failAt := some 1, msg := "boom" }
    = [CliEvent.construct, CliEvent.logError "boom", CliEvent.disconnect] := by decide

example : process_room_command "delete" [] { failAt := some 0, msg := "boom" }
    = [CliEvent.printed "Expected one or more room names"] := by decide

/-- Injective numeric code of a message type, base of the content-based
ordering key used by the capture oracle's `sort()`. -/
def MessageType.code : MessageType → Nat
  | MessageType.LIST_ROOMS => 0
  | MessageType.DELETE_ROOM => 1
  | MessageType.CLEAR_ROOM => 2
  | MessageType.LIST_ROOM_CLIENTS => 3
  | MessageType.LIST_CLIENTS => 4
  | MessageType.LIST_ALL_CLIENTS => 5
  | MessageType.CONNECTION_LOST => 6
  | MessageType.DOMAIN tag => 7 + tag

/-- Lexicographic comparison of byte payloads. -/
def bytesLe : List Nat → List Nat → Bool
  | [], _ => true
  | _ :: _, [] => false
  | a :: as, b :: bs =>
    if a < b then true else if b < a then false else bytesLe as bs

/-- The content-based total order on commands: by message-type code, then by
payload bytes lexicographically.  This is the ordering key of the capture
oracle's `sort()` (modelled from the spec: a stable, content-based key, not
arrival time). -/
def cmdLe (a b : Command) : Prop :=
  a.type.code < b.type.code ∨
    (a.type.code = b.type.code ∧ bytesLe a.payload b.payload = true)

instance : DecidableRel cmdLe := fun a b => by
  unfold cmdLe; infer_instance

/-- Modelled from the spec: a `Grabber`'s capture log — a mapping from
substream identifier to the ordered sequence of commands received on that
substream, in arrival order. -/
structure Grabber : Type where
  streams : List (String × List Command)
deriving DecidableEq, Repr

/-- Modelled from the spec: `Grabber.sort()` normalizes every substream's
sequence using the stable, content-based ordering key `cmdLe`. -/
def Grabber.sort (g : Grabber) : Grabber :=
  { streams := g.streams.map (fun p => (p.1, List.insertionSort cmdLe p.2)) }

/-- Result of the stream-equivalence comparison. -/
inductive EquivalenceResult : Type where
  | equivalent
  | missingSubstream (id : String)
  | lengthDivergence (id : String) (index : Nat)
  | divergence (id : String) (index : Nat) (a b : Command)
deriving DecidableEq, Repr

/-- Looks a substream up by identifier. -/
def lookupStream (id : String) (l : List (String × List Command)) :
    Option (List Command) :=
  (l.find? (fun p => p.1 == id)).map (fun p => p.2)

/-- Element-by-element comparison of two substream sequences, reporting the
first divergence with its index and both values, or a length mismatch. -/
def compareSeq (id : String) : Nat → List Command → List Command →
    EquivalenceResult
  | _, [], [] => EquivalenceResult.equivalent
  | i, [], _ :: _ => EquivalenceResult.lengthDivergence id i
  | i, _ :: _, [] => EquivalenceResult.lengthDivergence id i
  | i, x :: xs, y :: ys =>
    if x = y then compareSeq id (i + 1) xs ys
    else EquivalenceResult.divergence id i x y

/-- Compares every substream of the first log against the second, reporting
the first divergence (a substream absent from the second log is a
missing-substream divergence). -/
def compareAgainst (r : List (String × List Command)) :
    List (String × List Command) → EquivalenceResult
  | [] => EquivalenceResult.equivalent
  | (id, xs) :: rest =>
    match (match lookupStream id r with
      | none => EquivalenceResult.missingSubstream id
      | some ys => compareSeq id 0 xs ys) with
    | EquivalenceResult.equivalent => compareAgainst r rest
    | d => d

/-- Reports the first substream of the second log absent from the first. -/
def missingIn (s : List (String × List Command)) :
    List (String × List Command) → EquivalenceResult
  | [] => EquivalenceResult.equivalent
  | (id, _) :: rest =>
    if (lookupStream id s).isSome then missingIn s rest
    else EquivalenceResult.missingSubstream id

/-- Modelled from the spec: `MixerTestCase.assert_stream_equals` — the stream
equivalence oracle.  Over the union of substream identifiers of the two
(already sorted) logs, compare sequences element-by-element; success requires
every substream to match exactly. -/
def assert_stream_equals (s r : List (String × List Command)) :
    EquivalenceResult :=
  match compareAgainst r s with
  | EquivalenceResult.equivalent => missingIn s r
  | d => d

/-- The two collaborator instances of the end-to-end test. -/
inductive Role : Type where
  | sender
  | receiver
deriving DecidableEq, Repr

/-- Observable actions of one `assert_matches` run
(`tests/mixer_testcase.py`). -/
inductive TestEvent : Type where
  | disconnectMixer (who : Role)
  | killServer
  | startServer
  | joinRoom (who : Role) (room : String) (keepRoomOpen : Bool)
  | waitMs (ms : Nat)
  | grabRoom (room : String)
  | sortStreamsOf (who : Role)
  | compareLogs
deriving DecidableEq, Repr

/-- Outcome of one `assert_matches` run: either the test failure raised via
`self.failureException(*e.args)` from a failed grab, or the result of the
final stream comparison. -/
inductive TestOutcome : Type where
  | failure (args : List String)
  | streamResult (r : EquivalenceResult)
deriving DecidableEq, Repr

/-- `tests/mixer_testcase.py` `MixerTestCase.assert_matches`, parameterized by
the result of each `Grabber.grab` call (`Except` models the `RuntimeError` a
grab may raise, carrying its argument list).  The run: disconnect both
instances, wait 0.5 s, kill the server, start a fresh server; the sender
re-joins room `mixer_grab_sender` with `keep_room_open=True`, waits 1 s
(deposit), disconnects, and that room is grabbed and sorted; likewise the
receiver with room `mixer_grab_receiver`; the server is killed in the
`finally` block, and the two sorted logs are compared with
`assert_stream_equals`.  A grab's `RuntimeError` is re-raised as
`failureException` with the same arguments. -/
def assert_matches (senderGrab receiverGrab : Except (List String) Grabber) :
    TestOutcome × List TestEvent :=
  let pre : List TestEvent :=
    [TestEvent.disconnectMixer Role.sender, TestEvent.disconnectMixer Role.receiver,
     TestEvent.waitMs 500, TestEvent.killServer, TestEvent.startServer]
  let senderSession : List TestEvent :=
    [TestEvent.joinRoom Role.sender "mixer_grab_sender" true, TestEvent.waitMs 1000,
     TestEvent.disconnectMixer Role.sender, TestEvent.grabRoom "mixer_grab_sender"]
  match senderGrab with
  | Except.error eargs =>
    (TestOutcome.failure eargs, pre ++ senderSession ++ [TestEvent.killServer])
  | Except.ok sg =>
    let receiverSession : List TestEvent :=
      [TestEvent.joinRoom Role.receiver "mixer_grab_receiver" true, TestEvent.waitMs 1000,
       TestEvent.disconnectMixer Role.receiver, TestEvent.grabRoom "mixer_grab_receiver"]
    match receiverGrab with
    | Except.error eargs =>
      (TestOutcome.failure eargs,
       pre ++ senderSession ++ [TestEvent.sortStreamsOf Role.sender]
         ++ receiverSession ++ [TestEvent.killServer])
    | Except.ok rg =>
      (TestOutcome.streamResult
        (assert_stream_equals (Grabber.sort sg).streams (Grabber.sort rg).streams),
       pre ++ senderSession ++ [TestEvent.sortStreamsOf Role.sender]
         ++ receiverSession ++ [TestEvent.sortStreamsOf Role.receiver,
            TestEvent.killServer, TestEvent.compareLogs])

/-- The rooms grabbed during a run, in order. -/
def grabbedRooms (evs : List TestEvent) : List String :=
  evs.filterMap (fun e => match e with
    | TestEvent.grabRoom r => some r
    | _ => none)

/-- Per-substream permutation: same substream identifiers in the same order,
and each substream's sequence of one log a permutation of the other's. -/
def perStreamPerm (a b : Grabber) : Prop :=
  List.Forall₂ (fun p q => p.1 = q.1 ∧ p.2.Perm q.2) a.streams b.streams

theorem MessageType.code_inj (a b : MessageType) (h : a.code = b.code) :
    a = b := by
  cases a <;> cases b <;> simp_all [MessageType.code] <;> omega

theorem bytesLe_total (x : List Nat) : ∀ y, bytesLe x y = true ∨ bytesLe y x = true := by
  induction x with
  | nil => intro y; exact Or.inl rfl
  | cons a as ih =>
    intro y
    cases y with
    | nil => exact Or.inr rfl
    | cons b bs =>
      rcases Nat.lt_trichotomy a b with h | h | h
      · exact Or.inl (by simp [bytesLe, h])
      · subst h
        rcases ih bs with h2 | h2
        · exact Or.inl (by simp [bytesLe, h2])
        · exact Or.inr (by simp [bytesLe, h2])
      · exact Or.inr (by simp [bytesLe, h])

theorem bytesLe_antisymm (x : List Nat) :
    ∀ y, bytesLe x y = true → bytesLe y x = true → x = y := by
  induction x with
  | nil =>
    intro y h1 h2
    cases y with
    | nil => rfl
    | cons b bs => simp [bytesLe] at h2
  | cons a as ih =>
    intro y h1 h2
    cases y with
    | nil => simp [bytesLe] at h1
    | cons b bs =>
      rcases Nat.lt_trichotomy a b with h | h | h
      · simp [bytesLe, h, Nat.lt_asymm h] at h2
      · subst h
        simp only [bytesLe, Nat.lt_irrefl, if_false] at h1 h2
        rw [ih bs h1 h2]
      · simp [bytesLe, h, Nat.lt_asymm h] at h1

theorem bytesLe_trans (x : List Nat) :
    ∀ y z, bytesLe x y = true → bytesLe y z = true → bytesLe x z = true := by
  induction x with
  | nil => intro y z _ _; rfl
  | cons a as ih =>
    intro y z h1 h2
    cases y with
    | nil => simp [bytesLe] at h1
    | cons b bs =>
      cases z with
      | nil => simp [bytesLe] at h2
      | cons c cs =>
        by_cases hab : a < b
        · by_cases hbc : b < c
          · simp [bytesLe, Nat.lt_trans hab hbc]
          · by_cases hcb : c < b
            · simp [bytesLe, hbc, hcb] at h2
            · have hbc' : b = c := by omega
              subst hbc'
              simp [bytesLe, hab]
        · by_cases hba : b < a
          · simp [bytesLe, hab, hba] at h1
          · have hab' : a = b := by omega
            subst hab'
            simp only [bytesLe, Nat.lt_irrefl, if_false] at h1
            by_cases hac : a < c
            · simp [bytesLe, hac]
            · by_cases hca : c < a
              · simp [bytesLe, hac, hca] at h2
              · have hac' : a = c := by omega
                subst hac'
                simp only [bytesLe, Nat.lt_irrefl, if_false] at h2 ⊢
                exact ih bs cs h1 h2

instance : IsTotal Command cmdLe := by
  constructor
  intro a b
  unfold cmdLe
  rcases Nat.lt_trichotomy a.type.code b.type.code with h | h | h
  · exact Or.inl (Or.inl h)
  · rcases bytesLe_total a.payload b.payload with hb | hb
    · exact Or.inl (Or.inr ⟨h, hb⟩)
    · exact Or.inr (Or.inr ⟨h.symm, hb⟩)
  · exact Or.inr (Or.inl h)

instance : IsTrans Command cmdLe := by
  constructor
  intro a b c hab hbc
  rcases hab with h1 | ⟨h1, hb1⟩
  · rcases hbc with h2 | ⟨h2, _⟩
    · exact Or.inl (Nat.lt_trans h1 h2)
    · exact Or.inl (h2 ▸ h1)
  · rcases hbc with h2 | ⟨h2, hb2⟩
    · exact Or.inl (h1 ▸ h2)
    · exact Or.inr ⟨h1.trans h2, bytesLe_trans _ _ _ hb1 hb2⟩

instance : IsAntisymm Command cmdLe := by
  constructor
  intro a b hab hba
  rcases hab with h1 | ⟨h1, hb1⟩
  · rcases hba with h2 | ⟨h2, _⟩
    · omega
    · omega
  · rcases hba with h2 | ⟨h2, hb2⟩
    · omega
    · have ht : a.type = b.type := MessageType.code_inj _ _ h1
      have hp : a.payload = b.payload := bytesLe_antisymm _ _ hb1 hb2
      cases a; cases b; simp_all

theorem insertionSort_eq_of_perm {l₁ l₂ : List Command} (h : l₁.Perm l₂) :
    List.insertionSort cmdLe l₁ = List.insertionSort cmdLe l₂ :=
  List.eq_of_perm_of_sorted
    ((List.perm_insertionSort cmdLe l₁).trans
      (h.trans (List.perm_insertionSort cmdLe l₂).symm))
    (List.sorted_insertionSort cmdLe l₁)
    (List.sorted_insertionSort cmdLe l₂)

theorem sortedStreams_eq_of_forall₂ {s t : List (String × List Command)}
    (h : List.Forall₂ (fun p q => p.1 = q.1 ∧ p.2.Perm q.2) s t) :
    s.map (fun p => (p.1, List.insertionSort cmdLe p.2))
      = t.map (fun p => (p.1, List.insertionSort cmdLe p.2)) := by
  induction h with
  | nil => rfl
  | cons hpq _ ih =>
    simp only [List.map_cons, ih]
    rcases hpq with ⟨hid, hperm⟩
    rw [hid, insertionSort_eq_of_perm hperm]

theorem Grabber.sort_eq_of_perStreamPerm {a b : Grabber}
    (h : perStreamPerm a b) : a.sort = b.sort := by
  unfold Grabber.sort
  unfold perStreamPerm at h
  rw [sortedStreams_eq_of_forall₂ h]

theorem consume_of_terminate (fuel : Nat) (c : CliClient) (h : c.terminate = true) :
    CliClient.consume fuel c = (c, []) := by
  cases fuel with
  | zero => rfl
  | succ fuel => simp [CliClient.consume, h]

theorem consume_succ_none (fuel : Nat) (c : CliClient) (ht : c.terminate = false)
    (hin : c.inbox = []) :
    CliClient.consume (fuel + 1) c
      = ((CliClient.consume fuel c).1,
         LoopEvent.poll :: LoopEvent.slept :: (CliClient.consume fuel c).2) := by
  obtain ⟨h, p, co, t, cr, ob, ib⟩ := c
  simp only at ht hin
  subst ht
  subst hin
  rfl

theorem consume_succ_lost (fuel : Nat) (c : CliClient) (cmd : Command)
    (rest : List Command) (ht : c.terminate = false) (hin : c.inbox = cmd :: rest)
    (hl : cmd.type = MessageType.CONNECTION_LOST) :
    CliClient.consume (fuel + 1) c
      = ({ c with inbox := rest, connected := false, terminate := true },
         [LoopEvent.poll, LoopEvent.printed cmd]) := by
  obtain ⟨h, p, co, t, cr, ob, ib⟩ := c
  simp only at ht hin
  subst ht
  subst hin
  have step : CliClient.consume (fuel + 1)
      (CliClient.mk h p co false cr ob (cmd :: rest))
      = ((CliClient.consume fuel
            (Client.disconnect (CliClient.mk h p co false cr ob rest))).1,
         LoopEvent.poll :: LoopEvent.printed cmd ::
           (CliClient.consume fuel
             (Client.disconnect (CliClient.mk h p co false cr ob rest))).2) := by
    simp [CliClient.consume, Client.consume_one, hl]
  rw [step,
    consume_of_terminate fuel (Client.disconnect (CliClient.mk h p co false cr ob rest)) rfl]
  rfl

theorem consume_succ_other (fuel : Nat) (c : CliClient) (cmd : Command)
    (rest : List Command) (ht : c.terminate = false) (hin : c.inbox = cmd :: rest)
    (hl : cmd.type ≠ MessageType.CONNECTION_LOST) :
    CliClient.consume (fuel + 1) c
      = ((CliClient.consume fuel { c with inbox := rest }).1,
         LoopEvent.poll :: LoopEvent.printed cmd ::
           (CliClient.consume fuel { c with inbox := rest }).2) := by
  obtain ⟨h, p, co, t, cr, ob, ib⟩ := c
  simp only at ht hin
  subst ht
  subst hin
  simp [CliClient.consume, Client.consume_one, hl]

theorem pollsAfterLost_consume (fuel : Nat) :
    ∀ c : CliClient, pollsAfterLost (CliClient.consume fuel c).2 = 0 := by
  induction fuel with
  | zero => intro c; rfl
  | succ fuel ih =>
    intro c
    rcases ht : c.terminate with hf | htr
    · cases hin : c.inbox with
      | nil =>
        rw [consume_succ_none fuel c ht hin]
        simpa [pollsAfterLost] using ih c
      | cons cmd rest =>
        by_cases hl : cmd.type = MessageType.CONNECTION_LOST
        · rw [consume_succ_lost fuel c cmd rest ht hin hl]
          simp [pollsAfterLost, hl, countPolls]
        · rw [consume_succ_other fuel c cmd rest ht hin hl]
          simpa [pollsAfterLost, hl] using ih { c with inbox := rest }
    · rw [consume_of_terminate (fuel + 1) c ht]
      rfl

theorem runSteps_noFault (steps : List Step) :
    ∀ ctr, runSteps noFault steps ctr = (steps.map stepEvent, none) := by
  induction steps with
  | nil => intro ctr; rfl
  | cons s rest ih =>
    intro ctr
    cases s with
    | call ev =>
      simp only [runSteps]
      rw [if_neg (by simp [noFault]), ih (ctr + 1)]
      simp [stepEvent]
    | output s =>
      simp only [runSteps]
      rw [ih ctr]
      simp [stepEvent]

theorem postedCommands_append (a b : List CliEvent) :
    postedCommands (a ++ b) = postedCommands a ++ postedCommands b := by
  simp [postedCommands]

theorem postedCommands_posts (g : String → Command) (names : List String) :
    postedCommands (names.map (fun n => CliEvent.post (g n))) = names.map g := by
  induction names with
  | nil => rfl
  | cons n ns ih => simp [postedCommands] at ih ⊢; exact ih

theorem finishRun_getLast (r : List CliEvent × Option String)
    (h : CliEvent.construct ∈ finishRun r) :
    (finishRun r).getLast? = some CliEvent.disconnect := by
  by_cases hc : CliEvent.construct ∈ r.1
  · rw [finishRun, if_pos hc, List.getLast?_concat]
  · exfalso
    rw [finishRun, if_neg hc] at h
    rcases List.mem_append.mp h with h1 | h1
    · exact hc h1
    · cases hr : r.2 with
      | none => rw [hr] at h1; simp at h1
      | some m => rw [hr] at h1; simp at h1

theorem postedCommands_batch (cmd : String) (g : String → Command) (n : String)
    (ns : List String)
    (hsteps : roomSteps cmd (n :: ns)
      = [Step.call CliEvent.construct, Step.call CliEvent.connect]
        ++ (n :: ns).map (fun m => Step.call (CliEvent.post (g m)))) :
    postedCommands (process_room_command cmd (n :: ns) noFault) = (n :: ns).map g := by
  unfold process_room_command
  rw [hsteps, runSteps_noFault]
  simp only [List.map_append, List.map_cons, List.map_nil, List.map_map, stepEvent]
  rw [finishRun, if_pos (by simp)]
  simp only [postedCommands, List.filterMap_append, List.filterMap_map,
    List.filterMap_cons, List.filterMap_nil, Function.comp, stepEvent]
  have hfm : List.filterMap
      ((fun e => match e with
        | CliEvent.post c => some c
        | _ => none) ∘ stepEvent ∘ fun m => Step.call (CliEvent.post (g m))) ns
      = List.map g ns := congrFun (List.filterMap_eq_map g) ns
  rw [hfm]
  simp

theorem consumeIterations_le (term : Nat → Bool) (k : Nat)
    (hmono : ∀ i, term i = true → term (i + 1) = true) (hk : term k = true) :
    ∀ fuel i, consumeIterations term fuel i ≤ k - i := by
  have hprop : ∀ i, k ≤ i → term i = true := by
    have hup : ∀ d, term (k + d) = true := by
      intro d
      induction d with
      | zero => simpa using hk
      | succ d ih => exact hmono _ ih
    intro i hi
    have := hup (i - k)
    rwa [Nat.add_sub_cancel' hi] at this
  intro fuel
  induction fuel with
  | zero => intro i; simp [consumeIterations]
  | succ fuel ih =>
    intro i
    by_cases h : term i = true
    · simp [consumeIterations, h]
    · have hik : i < k := by
        by_contra hge
        exact h (hprop i (by omega))
      have := ih (i + 1)
      simp only [consumeIterations, h, if_false, Bool.false_eq_true]
      omega

/-- Claim C1 (amended): the room/roster operations of `CliClient` themselves
perform no connection check — invoked on a client whose `isConnected` is
false they still enqueue their command unconditionally; the rejection of
room/roster operations on a disconnected client is performed by
`interactive_loop`, which raises `RuntimeError` ("Not connected, use
"connect" first") before invoking any of `listRooms`, `listRoomClients`,
`listClients`, `listAllClients` whenever the client is `None` or not
connected. -/
theorem claim_C1_amended (c : CliClient) (h : Client.isConnected c = false) :
    (∀ cmd, interactiveDispatch (some c) cmd = Except.error notConnectedMsg)
    ∧ (∀ cmd, interactiveDispatch none cmd = Except.error notConnectedMsg)
    ∧ (CliClient.listRooms c).outbox = c.outbox ++ [listRoomsCmd]
    ∧ (∀ n, (CliClient.deleteRoom c n).outbox = c.outbox ++ [deleteRoomCmd n])
    ∧ (∀ n, (CliClient.clearRoom c n).outbox = c.outbox ++ [clearRoomCmd n])
    ∧ (∀ n, (CliClient.listRoomClients c n).outbox = c.outbox ++ [listRoomClientsCmd n])
    ∧ (CliClient.listClients c).outbox = c.outbox ++ [listClientsCmd]
    ∧ (CliClient.listAllClients c).outbox = c.outbox ++ [listAllClientsCmd] := by
  refine ⟨?_, fun cmd => rfl, rfl, fun n => rfl, fun n => rfl, fun n => rfl, rfl, rfl⟩
  intro cmd
  simp [interactiveDispatch, h]

/-- Witness for `claim_C1_amended` at a freshly constructed, never-connected
client. -/
theorem claim_C1_amended_witness :
    Client.isConnected (Client.init "localhost" 12800) = false
    ∧ interactiveDispatch (some (Client.init "localhost" 12800)) RosterCmd.listrooms
        = Except.error notConnectedMsg :=
  ⟨rfl, (claim_C1_amended (Client.init "localhost" 12800) rfl).1 RosterCmd.listrooms⟩

/-- Claim C1 as stated is false: on a freshly constructed `CliClient` (not
connected), `deleteRoom` and `listRooms` are not rejected — each posts its
command into the outbound queue. -/
theorem claim_C1_counterexample :
    Client.isConnected (CliClient.mkInit "localhost" 12800) = false
    ∧ (CliClient.deleteRoom (CliClient.mkInit "localhost" 12800) "room").outbox
        = [deleteRoomCmd "room"]
    ∧ (CliClient.listRooms (CliClient.mkInit "localhost" 12800)).outbox
        = [listRoomsCmd] :=
  ⟨rfl, rfl, rfl⟩

/-- Claim C2: in every run of the consumption loop, no `consume_one` poll
happens after a `CONNECTION_LOST` command is received (first conjunct), and
when a `CONNECTION_LOST` command is received, that iteration calls
`disconnect()` and is the last one: the loop's trace ends right there, the
client is left not connected, and the `terminate` exit condition of the loop
holds, for every remaining fuel — i.e. the task exits (second conjunct). -/
theorem claim_C2 :
    (∀ fuel c, pollsAfterLost (CliClient.consume fuel c).2 = 0)
    ∧ (∀ fuel (c : CliClient) cmd rest, c.terminate = false → c.inbox = cmd :: rest →
        cmd.type = MessageType.CONNECTION_LOST →
          (CliClient.consume (fuel + 1) c).2 = [LoopEvent.poll, LoopEvent.printed cmd]
          ∧ (CliClient.consume (fuel + 1) c).1.connected = false
          ∧ (CliClient.consume (fuel + 1) c).1.terminate = true) := by
  refine ⟨pollsAfterLost_consume, ?_⟩
  intro fuel c cmd rest ht hin hl
  rw [consume_succ_lost fuel c cmd rest ht hin hl]
  exact ⟨rfl, rfl, rfl⟩

/-- Witness for `claim_C2` on a connected client whose inbound buffer holds a
`CONNECTION_LOST` command. -/
theorem claim_C2_witness :
    (CliClient.consume 4
        (CliClient.mk "localhost" 12800 true false true []
          [{ type := MessageType.CONNECTION_LOST }])).2
      = [LoopEvent.poll, LoopEvent.printed { type := MessageType.CONNECTION_LOST }]
    ∧ (CliClient.consume 4
        (CliClient.mk "localhost" 12800 true false true []
          [{ type := MessageType.CONNECTION_LOST }])).1.connected = false
    ∧ (CliClient.consume 4
        (CliClient.mk "localhost" 12800 true false true []
          [{ type := MessageType.CONNECTION_LOST }])).1.terminate = true :=
  claim_C2.2 3 (CliClient.mk "localhost" 12800 true false true []
    [{ type := MessageType.CONNECTION_LOST }]) { type := MessageType.CONNECTION_LOST }
    [] rfl rfl rfl

/-- Claim C3 as stated is false: the consumption task is already running on a
freshly constructed `CliClient`, before `connect` is ever invoked — the
consumer thread is started by `CliClient.__init__`, not by `connect`. -/
theorem claim_C3_counterexample :
    (CliClient.mkInit "localhost" 12800).consumerRunning = true := rfl

/-- Claim C3 (amended): the background consumption task is started by the
`CliClient` constructor, not by `connect`: a bare transport client has no
running task, `CliClient.__init__` starts it, so it is already running before
`connect` is invoked (in `process_room_command`, `CliClient(args)` precedes
`client.connect()`), and `connect` does not change the task's running
state. -/
theorem claim_C3_amended (host : String) (port : Nat) :
    (CliClient.mkInit host port).consumerRunning = true
    ∧ (Client.init host port).consumerRunning = false
    ∧ (Client.connect (CliClient.mkInit host port)).consumerRunning = true
    ∧ (∀ c : CliClient, (Client.connect c).consumerRunning = c.consumerRunning) :=
  ⟨rfl, rfl, rfl, fun _ => rfl⟩

/-- Claim C4 (amended): `assert_matches` performs two capturing sessions
against the two rooms named `mixer_grab_sender` and `mixer_grab_receiver`
(not `grab_sender`/`grab_receiver`): the sender re-joins its dedicated room
in keep-room-open (upload) mode, deposits its history and disconnects before
that room is grabbed, likewise the receiver afterwards, and finally the
oracle compares the two captured (sorted) histories. -/
theorem claim_C4_amended (sg rg : Grabber) :
    (assert_matches (Except.ok sg) (Except.ok rg)).2
      = [TestEvent.disconnectMixer Role.sender, TestEvent.disconnectMixer Role.receiver,
         TestEvent.waitMs 500, TestEvent.killServer, TestEvent.startServer,
         TestEvent.joinRoom Role.sender "mixer_grab_sender" true, TestEvent.waitMs 1000,
         TestEvent.disconnectMixer Role.sender, TestEvent.grabRoom "mixer_grab_sender",
         TestEvent.sortStreamsOf Role.sender,
         TestEvent.joinRoom Role.receiver "mixer_grab_receiver" true, TestEvent.waitMs 1000,
         TestEvent.disconnectMixer Role.receiver, TestEvent.grabRoom "mixer_grab_receiver",
         TestEvent.sortStreamsOf Role.receiver, TestEvent.killServer, TestEvent.compareLogs]
    ∧ (assert_matches (Except.ok sg) (Except.ok rg)).1
      = TestOutcome.streamResult
          (assert_stream_equals (Grabber.sort sg).streams (Grabber.sort rg).streams) :=
  ⟨rfl, rfl⟩

/-- Claim C4 as stated is false on the room names: the grabbed rooms are
`mixer_grab_sender` and `mixer_grab_receiver`, not `grab_sender` and
`grab_receiver`. -/
theorem claim_C4_counterexample :
    grabbedRooms (assert_matches (Except.ok { streams := [] })
        (Except.ok { streams := [] })).2
      = ["mixer_grab_sender", "mixer_grab_receiver"]
    ∧ (grabbedRooms (assert_matches (Except.ok { streams := [] })
        (Except.ok { streams := [] })).2).contains "grab_sender" = false
    ∧ (grabbedRooms (assert_matches (Except.ok { streams := [] })
        (Except.ok { streams := [] })).2).contains "grab_receiver" = false := by
  refine ⟨rfl, ?_, ?_⟩ <;> decide

/-- Claim C5: `assert_matches` compares the two captured logs only after
normalizing both with `sort()` (second conjunct), and because `sort` orders
every substream by the content-based key `cmdLe`, the comparison outcome is
insensitive to arrival-order differences within each substream: permuting
any substream's sequence of either log leaves the outcome unchanged (first
conjunct). -/
theorem claim_C5 (sg sg' rg rg' : Grabber) (hs : perStreamPerm sg sg')
    (hr : perStreamPerm rg rg') :
    (assert_matches (Except.ok sg') (Except.ok rg')).1
      = (assert_matches (Except.ok sg) (Except.ok rg)).1
    ∧ (assert_matches (Except.ok sg) (Except.ok rg)).1
      = TestOutcome.streamResult
          (assert_stream_equals (Grabber.sort sg).streams (Grabber.sort rg).streams) := by
  constructor
  · show TestOutcome.streamResult
        (assert_stream_equals (Grabber.sort sg').streams (Grabber.sort rg').streams)
      = TestOutcome.streamResult
        (assert_stream_equals (Grabber.sort sg).streams (Grabber.sort rg).streams)
    rw [← Grabber.sort_eq_of_perStreamPerm hs, ← Grabber.sort_eq_of_perStreamPerm hr]
  · rfl

/-- Witness for `claim_C5`: one substream `S1` captured in the two opposite
arrival orders leads to the same comparison outcome. -/
theorem claim_C5_witness :
    perStreamPerm
        { streams := [("S1", [{ type := MessageType.DOMAIN 0, payload := [1] },
                              { type := MessageType.DOMAIN 0, payload := [2] }])] }
        { streams := [("S1", [{ type := MessageType.DOMAIN 0, payload := [2] },
                              { type := MessageType.DOMAIN 0, payload := [1] }])] }
    ∧ perStreamPerm { streams := [] } { streams := [] }
    ∧ (assert_matches
        (Except.ok { streams := [("S1", [{ type := MessageType.DOMAIN 0, payload := [2] },
                                         { type := MessageType.DOMAIN 0, payload := [1] }])] })
        (Except.ok { streams := [] })).1
      = (assert_matches
        (Except.ok { streams := [("S1", [{ type := MessageType.DOMAIN 0, payload := [1] },
                                         { type := MessageType.DOMAIN 0, payload := [2] }])] })
        (Except.ok { streams := [] })).1 := by
  have hs : perStreamPerm
      { streams := [("S1", [{ type := MessageType.DOMAIN 0, payload := [1] },
                            { type := MessageType.DOMAIN 0, payload := [2] }])] }
      { streams := [("S1", [{ type := MessageType.DOMAIN 0, payload := [2] },
                            { type := MessageType.DOMAIN 0, payload := [1] }])] } :=
    List.Forall₂.cons ⟨rfl, by decide⟩ List.Forall₂.nil
  have hr : perStreamPerm { streams := ([] : List (String × List Command)) }
      { streams := [] } := List.Forall₂.nil
  exact ⟨hs, hr, (claim_C5 _ _ _ _ hs hr).1⟩

/-- Claim C6: with a non-empty name list, the batch room commands `delete`,
`clear` and `clients` post exactly one command per name, in the given order,
the i-th carrying the operation's message type and the i-th name encoded as
bytes; the parameterless list operations post a single command of the
matching type with empty payload. -/
theorem claim_C6 (names : List String) (h : names ≠ []) :
    postedCommands (process_room_command "delete" names noFault)
        = names.map deleteRoomCmd
    ∧ postedCommands (process_room_command "clear" names noFault)
        = names.map clearRoomCmd
    ∧ postedCommands (process_room_command "clients" names noFault)
        = names.map listRoomClientsCmd
    ∧ postedCommands (process_room_command "list" [] noFault) = [listRoomsCmd]
    ∧ postedCommands (process_client_command "list" noFault) = [listClientsCmd]
    ∧ listRoomsCmd = { type := MessageType.LIST_ROOMS, payload := [] }
    ∧ listClientsCmd = { type := MessageType.LIST_CLIENTS, payload := [] }
    ∧ listAllClientsCmd = { type := MessageType.LIST_ALL_CLIENTS, payload := [] }
    ∧ (∀ n, deleteRoomCmd n
        = { type := MessageType.DELETE_ROOM, payload := strEncode n })
    ∧ (∀ n, clearRoomCmd n
        = { type := MessageType.CLEAR_ROOM, payload := strEncode n })
    ∧ (∀ n, listRoomClientsCmd n
        = { type := MessageType.LIST_ROOM_CLIENTS, payload := strEncode n }) := by
  obtain ⟨n, ns, rfl⟩ := List.exists_cons_of_ne_nil h
  refine ⟨?_, ?_, ?_, rfl, rfl, rfl, rfl, rfl, fun n => rfl, fun n => rfl, fun n => rfl⟩
  · exact postedCommands_batch "delete" deleteRoomCmd n ns (by simp [roomSteps])
  · exact postedCommands_batch "clear" clearRoomCmd n ns (by simp [roomSteps])
  · exact postedCommands_batch "clients" listRoomClientsCmd n ns (by simp [roomSteps])

/-- Witness for `claim_C6` at the one-element name list `["a"]`. -/
theorem claim_C6_witness :
    (["a"] : List String) ≠ []
    ∧ postedCommands (process_room_command "delete" ["a"] noFault)
        = (["a"] : List String).map deleteRoomCmd :=
  ⟨by decide, (claim_C6 ["a"] (by decide)).1⟩

/-- Claim C7: in `assert_matches`, a grab failure (the `RuntimeError` of a
capture session, carrying its argument list) is surfaced as the test failure
`failureException` with the same arguments, for the sender's grab as well as
for the receiver's. -/
theorem claim_C7 :
    (∀ (eargs : List String) (rgrab : Except (List String) Grabber),
        (assert_matches (Except.error eargs) rgrab).1 = TestOutcome.failure eargs)
    ∧ (∀ (sg : Grabber) (eargs : List String),
        (assert_matches (Except.ok sg) (Except.error eargs)).1
          = TestOutcome.failure eargs) :=
  ⟨fun _ _ => rfl, fun _ _ => rfl⟩

/-- Claim C8: the consumption loop observes the `terminate` flag within one
polling interval.  `term i` is the flag value read at the i-th loop check; if
the flag is set during iteration `j` (it reads true at check `j + 1`) and is
never unset, the loop executes at most `j + 1` iterations in total — at most
one iteration (one `consume_one` attempt plus at most one 0.1-second sleep)
runs after the flag becomes true, and the loop then exits cleanly. -/
theorem claim_C8 (term : Nat → Bool) (fuel j : Nat)
    (hmono : ∀ i, term i = true → term (i + 1) = true)
    (hset : term (j + 1) = true) :
    consumeIterations term fuel 0 ≤ j + 1 := by
  have := consumeIterations_le term (j + 1) hmono hset fuel 0
  omega

/-- Witness for `claim_C8` with a flag set during iteration 0. -/
theorem claim_C8_witness :
    consumeIterations (fun i => decide (1 ≤ i)) 10 0 ≤ 1 :=
  claim_C8 (fun i => decide (1 ≤ i)) 10 0
    (fun i h => by simp only [decide_eq_true_eq] at *; omega) (by decide)

/-- Claim C9: on every path of `process_room_command` and
`process_client_command` on which a `CliClient` was constructed — for every
sub-command, name list and `ServerError` fault point — `disconnect()` is
invoked on that client before the function returns, as its very last action;
in particular on the path where a `ServerError` is raised and logged (third
conjunct: the error raised by the `connect` call is logged and the client is
still disconnected). -/
theorem claim_C9 :
    (∀ (cmd : String) (names : List String) (f : Fault),
        CliEvent.construct ∈ process_room_command cmd names f →
        (process_room_command cmd names f).getLast? = some CliEvent.disconnect)
    ∧ (∀ (cmd : String) (f : Fault),
        CliEvent.construct ∈ process_client_command cmd f →
        (process_client_command cmd f).getLast? = some CliEvent.disconnect)
    ∧ (∀ (n : String) (ns : List String) (msg : String),
        process_room_command "delete" (n :: ns) { failAt := some 1, msg := msg }
          = [CliEvent.construct, CliEvent.logError msg, CliEvent.disconnect]) := by
  refine ⟨fun cmd names f hmem => finishRun_getLast _ hmem,
    fun cmd f hmem => finishRun_getLast _ hmem, ?_⟩
  intro n ns msg
  have hsteps : roomSteps "delete" (n :: ns)
      = [Step.call CliEvent.construct, Step.call CliEvent.connect]
        ++ (n :: ns).map (fun m => Step.call (CliEvent.post (deleteRoomCmd m))) := by
    simp [roomSteps]
  unfold process_room_command
  rw [hsteps]
  simp [runSteps, finishRun]

/-- Witness for `claim_C9` on `room list`. -/
theorem claim_C9_witness :
    CliEvent.construct ∈ process_room_command "list" [] noFault
    ∧ (process_room_command "list" [] noFault).getLast? = some CliEvent.disconnect :=
  ⟨by decide, claim_C9.1 "list" [] noFault (by decide)⟩

/-- Claim C10: for the batch room commands `delete`, `clear` and `clients`,
an empty name list is a transport-level no-op regardless of faults: the run
consists of the single report `Expected one or more room names` — no client
is constructed, no connection is opened, no command is posted. -/
theorem claim_C10 (f : Fault) :
    process_room_command "delete" [] f
        = [CliEvent.printed "Expected one or more room names"]
    ∧ process_room_command "clear" [] f
        = [CliEvent.printed "Expected one or more room names"]
    ∧ process_room_command "clients" [] f
        = [CliEvent.printed "Expected one or more room names"] :=
  ⟨rfl, rfl, rfl⟩
